import Mathlib

/-!
# Verification of the ImageToVideo core (`src/imgToVideo.py`)

A shallow embedding of the Ken Burns pipeline:

* `scaleAndBlur`  — the Compositor (`src/imgToVideo.py`, lines 8-101);
* `frames_from_image` — the FrameSequencer (lines 103-194);
* `stitch_videos` — the Stitcher (absent from `src/`, only its tests import
  it; modelled from the spec, see its doc comment).

Modelling conventions:

* Python float arithmetic is embedded as exact rational arithmetic (`ℚ`);
  Python `int()` is truncation toward zero (`pyInt`), Python float `//`
  is `Int.floor` of the quotient.
* A decoded image / numpy array is represented by its shape; `cv2.imread`
  is an oracle `Option (ℕ × ℕ)` giving `(height, width)` on success and
  `none` on decode failure.  `cv2.resize(img, (w, h))` produces an array
  of shape `(h, w, 3)` when `w` and `h` are both positive, and raises
  `cv2.error` (the `!dsize.empty()` assertion) when a computed destination
  dimension is zero — which the `int()` truncation can produce for extreme
  aspect ratios; `cv2.GaussianBlur` preserves the (nonempty) shape.
* The cover-size identities of the success path (for instance
  `(targetHeight/initialHeight) * initialHeight = targetHeight`) are exact
  in this rational model; IEEE double rounding of the same expressions is
  not modelled.
* numpy basic slicing clips out-of-range bounds (`npClip`, `sliceCount`);
  a slice assignment succeeds exactly when the selected region has the
  shape of the assigned array (broadcasting is not needed: the proofs show
  the shapes match exactly).
* A raised Python exception is a `PyError`: its class name (`kind`) and
  its message.  Every raise site in `scaleAndBlur` and `frames_from_image`
  uses the class `ValueError`.
-/

namespace ImageToVideo

/-- A raised Python exception: exception class (kind) and message text. -/
structure PyError where
  kind : String
  msg : String
deriving DecidableEq

/-- Python `int()` on a rational: truncation toward zero. -/
def pyInt (q : ℚ) : ℤ := if q < 0 then -⌊-q⌋ else ⌊q⌋

/-- numpy slice-bound clipping for an axis of length `len`:
negative indices count from the end, out-of-range bounds clip to `[0, len]`. -/
def npClip (i len : ℤ) : ℤ := if i < 0 then max (len + i) 0 else min i len

/-- Number of elements selected by the basic slice `[i : j]` (step 1) on an
axis of length `len`. -/
def sliceCount (i j len : ℤ) : ℤ := max (npClip j len - npClip i len) 0

/-! ## Compositor (`scaleAndBlur`, lines 8-101)

The decoded source image has shape `(initialHeight, initialWidth)`
(`img.shape[0]`, `img.shape[1]`, lines 60-63).  The geometry of the
composition, line by line. -/

/-- Line 69: `initRatio > idealRatio` where `idealRatio = targetWidth/targetHeight`
and `initRatio = initialWidth/initialHeight` (lines 65-66). -/
def isWide (initialWidth initialHeight : ℕ) (targetWidth targetHeight : ℤ) : Prop :=
  (targetWidth : ℚ) / (targetHeight : ℚ) < (initialWidth : ℚ) / (initialHeight : ℚ)

instance (W0 H0 : ℕ) (tW tH : ℤ) : Decidable (isWide W0 H0 tW tH) := by
  unfold isWide; infer_instance

/-- Lines 69-74: the overlay scale factor. -/
def scaleFactor (W0 H0 : ℕ) (tW tH : ℤ) : ℚ :=
  if isWide W0 H0 tW tH then (tW : ℚ) / (W0 : ℚ) else (tH : ℚ) / (H0 : ℚ)

/-- Lines 69-74: the cover scale factor. -/
def invScaleFactor (W0 H0 : ℕ) (tW tH : ℤ) : ℚ :=
  if isWide W0 H0 tW tH then (tH : ℚ) / (H0 : ℚ) else (tW : ℚ) / (W0 : ℚ)

/-- Line 77: `newData = (int(scaleFactor*initialWidth), int(scaleFactor*initialHeight))`,
the width component — the overlay width. -/
def newDataW (W0 H0 : ℕ) (tW tH : ℤ) : ℤ := pyInt (scaleFactor W0 H0 tW tH * W0)

/-- Line 77, the height component — the overlay height. -/
def newDataH (W0 H0 : ℕ) (tW tH : ℤ) : ℤ := pyInt (scaleFactor W0 H0 tW tH * H0)

/-- Line 78: `invNewData`, width component — the cover width. -/
def invNewDataW (W0 H0 : ℕ) (tW tH : ℤ) : ℤ := pyInt (invScaleFactor W0 H0 tW tH * W0)

/-- Line 78, height component — the cover height. -/
def invNewDataH (W0 H0 : ℕ) (tW tH : ℤ) : ℤ := pyInt (invScaleFactor W0 H0 tW tH * H0)

/-- Line 76: `w_offset = ((targetWidth//2) - (initialWidth*scaleFactor//2))`.
`targetWidth//2` is integer floor division, `initialWidth*scaleFactor//2` is
float floor division; the difference is integer-valued, so `int(w_offset)`
(line 90) is the identity on it. -/
def w_offset (W0 H0 : ℕ) (tW tH : ℤ) : ℤ :=
  ⌊(tW : ℚ) / 2⌋ - ⌊(W0 : ℚ) * scaleFactor W0 H0 tW tH / 2⌋

/-- Line 90: `x_offset = int(w_offset)`. -/
def x_offset (W0 H0 : ℕ) (tW tH : ℤ) : ℤ := w_offset W0 H0 tW tH

/-- Lines 92-95: vertical placement — centered in the wide branch, `0` in the
narrow-or-equal branch. -/
def y_offset (W0 H0 : ℕ) (tW tH : ℤ) : ℤ :=
  if isWide W0 H0 tW tH then
    ⌊(tH : ℚ) / 2⌋ - ⌊(H0 : ℚ) * scaleFactor W0 H0 tW tH / 2⌋
  else 0

/-- Lines 8-101, `scaleAndBlur`.  `decoded` is the result of
`cv2.imread(img_file)`: `some (initialHeight, initialWidth)` on success,
`none` on decode failure.  The result is the shape of the returned array
(`final_img`, line 99), or the raised exception.

The two `cv2.resize` calls (lines 80-85, `newData` first, then
`invNewData`) raise `cv2.error` when their destination size has a
non-positive component (empty `dsize`): the `int()` truncation in line 77
can make an overlay dimension 0 for extreme aspect ratios.

The paste (line 97) assigns `scaled_img`, of shape `(newDataH, newDataW, 3)`,
into the slice `blurred_img[y_offset : y_offset+newDataH,
x_offset : x_offset+newDataW]` of the cover, of shape
`(invNewDataH, invNewDataW, 3)`; it succeeds exactly when the selected
region has the shape of `scaled_img`.  Line 99 then slices
`blurred_img[0:targetHeight, 0:targetWidth]`. -/
def scaleAndBlur (decoded : Option (ℕ × ℕ))
    (targetWidth targetHeight targetBlur : ℤ) : Except PyError (ℕ × ℕ × ℕ) :=
  if targetWidth ≤ 0 ∨ targetHeight ≤ 0 then
    .error ⟨"ValueError",
      s!"Target dimensions must be positive. Got width={targetWidth}, height={targetHeight}"⟩
  else if targetBlur ≤ 0 then
    .error ⟨"ValueError", s!"Target blur must be positive. Got blur={targetBlur}"⟩
  else if targetBlur % 2 = 0 then
    .error ⟨"ValueError", s!"Target blur must be odd for GaussianBlur. Got blur={targetBlur}"⟩
  else
    match decoded with
    | none =>
      .error ⟨"ValueError",
        "Failed to load image. File may be corrupted or not a valid image format."⟩
    | some (initialHeight, initialWidth) =>
      if newDataW initialWidth initialHeight targetWidth targetHeight ≤ 0 ∨
         newDataH initialWidth initialHeight targetWidth targetHeight ≤ 0 then
        .error ⟨"cv2.error", "resize: the destination size is empty"⟩
      else if invNewDataW initialWidth initialHeight targetWidth targetHeight ≤ 0 ∨
         invNewDataH initialWidth initialHeight targetWidth targetHeight ≤ 0 then
        .error ⟨"cv2.error", "resize: the destination size is empty"⟩
      else if sliceCount (y_offset initialWidth initialHeight targetWidth targetHeight)
           (y_offset initialWidth initialHeight targetWidth targetHeight +
             newDataH initialWidth initialHeight targetWidth targetHeight)
           (invNewDataH initialWidth initialHeight targetWidth targetHeight) =
           newDataH initialWidth initialHeight targetWidth targetHeight ∧
         sliceCount (x_offset initialWidth initialHeight targetWidth targetHeight)
           (x_offset initialWidth initialHeight targetWidth targetHeight +
             newDataW initialWidth initialHeight targetWidth targetHeight)
           (invNewDataW initialWidth initialHeight targetWidth targetHeight) =
           newDataW initialWidth initialHeight targetWidth targetHeight then
        .ok ((sliceCount 0 targetHeight
                (invNewDataH initialWidth initialHeight targetWidth targetHeight)).toNat,
             (sliceCount 0 targetWidth
                (invNewDataW initialWidth initialHeight targetWidth targetHeight)).toNat, 3)
      else
        .error ⟨"ValueError", "could not broadcast input array into slice"⟩

/-! ## FrameSequencer (`frames_from_image`, lines 103-194) -/

/-- Everything lines 181-194 compute for one frame index `i`:
the scale, the two margins, the enlarged dimensions, and the shape of the
cropped frame that is yielded. -/
structure FrameSpec where
  currentScale : ℚ
  horizontalOffset : ℤ
  verticalOffset : ℤ
  currentHeight : ℤ
  currentWidth : ℤ
  shape : ℕ × ℕ × ℕ
deriving DecidableEq

/-- The loop body, lines 181-194, at index `i`:
`currentScale = 1 + i*zoomRate`,
`horizontalOffset = int((currentScale - 1)*targetHeight)` (the row margin),
`verticalOffset = int((currentScale - 1)*targetWidth)` (the column margin);
the canvas is resized to `(targetWidth + verticalOffset*2,
targetHeight + horizontalOffset*2)` and the yielded frame is the slice
`[horizontalOffset : targetHeight+horizontalOffset,
verticalOffset : targetWidth+verticalOffset]` of it. -/
def frameAt (zoomRate : ℚ) (targetWidth targetHeight : ℤ) (i : ℕ) : FrameSpec :=
  let currentScale : ℚ := 1 + (i : ℚ) * zoomRate
  let hOff := pyInt ((currentScale - 1) * (targetHeight : ℚ))
  let vOff := pyInt ((currentScale - 1) * (targetWidth : ℚ))
  let currentHeight := targetHeight + hOff * 2
  let currentWidth := targetWidth + vOff * 2
  { currentScale := currentScale
    horizontalOffset := hOff
    verticalOffset := vOff
    currentHeight := currentHeight
    currentWidth := currentWidth
    shape := ((sliceCount hOff (targetHeight + hOff) currentHeight).toNat,
              (sliceCount vOff (targetWidth + vOff) currentWidth).toNat, 3) }

/-- Lines 103-194, `frames_from_image`.  `canvas` is the shape of the input
image (it does not influence the geometry: every frame is resized to
explicit dimensions).  The generator is embedded as the finite list of the
frames it yields, in order; validation (lines 162-172) precedes the loop.
The float literal `0.1` of line 168 is the exact rational `1/10`; the tqdm
progress wrapper (lines 177-179) does not alter the iterated sequence. -/
def frames_from_image (canvas : ℕ × ℕ × ℕ) (frameRate imgDuration : ℤ)
    (zoomRate : ℚ) (targetWidth targetHeight : ℤ) :
    Except PyError (List FrameSpec) :=
  if frameRate ≤ 0 then
    .error ⟨"ValueError", s!"Frame rate must be positive. Got frameRate={frameRate}"⟩
  else if imgDuration ≤ 0 then
    .error ⟨"ValueError", s!"Image duration must be positive. Got imgDuration={imgDuration}"⟩
  else if zoomRate < 0 ∨ zoomRate > 1 / 10 then
    .error ⟨"ValueError", "Zoom rate must be between 0 and 0.1 for reasonable results."⟩
  else if targetWidth ≤ 0 ∨ targetHeight ≤ 0 then
    .error ⟨"ValueError",
      s!"Target dimensions must be positive. Got width={targetWidth}, height={targetHeight}"⟩
  else
    .ok ((List.range (frameRate * imgDuration).toNat).map
      (frameAt zoomRate targetWidth targetHeight))

/-! ## Stitcher -/

/-- An input video that opened successfully: its actual geometry and its
frames, in temporal order (frames are abstract markers). -/
structure VideoFile where
  width : ℤ
  height : ℤ
  frames : List ℕ
deriving DecidableEq

/-- Modelled from the spec: the per-input loop of the Stitcher.
`stitch_videos` is code of this repository that is missing from `src/` —
only `src/tests/test_stitching.py` imports it.  Spec §4.4: for each input
path in list order, open a reader (`none` models a path that cannot be
opened → `InputNotFound`, fail-fast), validate its geometry against the
declared `(width, height)` (`DimensionMismatch`, stops immediately), then
copy every frame, unmodified and in temporal order, to the output. -/
def stitchFrames (w h : ℤ) : List (Option VideoFile) → Except PyError (List ℕ)
  | [] => .ok []
  | none :: _ => .error ⟨"InputNotFound", "input video could not be opened"⟩
  | some v :: rest =>
    if v.width = w ∧ v.height = h then
      match stitchFrames w h rest with
      | .ok out => .ok (v.frames ++ out)
      | .error e => .error e
    else
      .error ⟨"DimensionMismatch", "input video does not match declared dimensions"⟩

/-- Modelled from the spec: `stitch` (spec §4.4), absent from `src/`.
`InvalidParameter` if the input list or the output path is empty (checked
before touching any file); `EncoderUnavailable` if the output sink cannot
be opened (`encoderOpens` is the collaborator's open-success signal); then
the inputs are streamed in order.  On success the result is the output
frame stream: the concatenation of all inputs' frames. -/
def stitch_videos (video_files : List (Option VideoFile)) (output_path : String)
    (encoderOpens : Bool) (fps w h : ℤ) : Except PyError (List ℕ) :=
  if video_files.isEmpty || output_path == "" then
    .error ⟨"InvalidParameter", "empty input list or empty output path"⟩
  else if !encoderOpens then
    .error ⟨"EncoderUnavailable", "output video writer could not be opened"⟩
  else
    stitchFrames w h video_files

/-- The exception class of a failed call (`none` when the call succeeded):
what an exception handler such as `except ValueError` (line 546) can
dispatch on. -/
def errorKind {α : Type} : Except PyError α → Option String
  | .error e => some e.kind
  | .ok _ => none

/-! ## Arithmetic helpers -/

theorem pyInt_of_nonneg (q : ℚ) (h : 0 ≤ q) : pyInt q = ⌊q⌋ :=
  if_neg (not_lt.2 h)

theorem pyInt_intCast (z : ℤ) : pyInt (z : ℚ) = z := by
  unfold pyInt
  split
  · have h : (-(z : ℚ)) = ((-z : ℤ) : ℚ) := by push_cast; ring
    rw [h, Int.floor_intCast, neg_neg]
  · exact Int.floor_intCast z

theorem pyInt_nonneg (q : ℚ) (h : 0 ≤ q) : 0 ≤ pyInt q := by
  rw [pyInt_of_nonneg q h]
  exact Int.floor_nonneg.2 h

theorem pyInt_eq (q : ℚ) (z : ℤ) (h0 : 0 ≤ q) (h1 : (z : ℚ) ≤ q)
    (h2 : q < (z : ℚ) + 1) : pyInt q = z := by
  rw [pyInt_of_nonneg q h0]
  exact Int.floor_eq_iff.2 ⟨h1, h2⟩

theorem pyInt_le_pyInt (a b : ℚ) (ha : 0 ≤ a) (hab : a ≤ b) :
    pyInt a ≤ pyInt b := by
  rw [pyInt_of_nonneg a ha, pyInt_of_nonneg b (ha.trans hab)]
  exact Int.floor_le_floor hab

theorem pyInt_pos (q : ℚ) (h : 1 ≤ q) : 0 < pyInt q := by
  rw [pyInt_of_nonneg q (zero_le_one.trans h)]
  exact lt_of_lt_of_le Int.zero_lt_one (Int.le_floor.2 (by exact_mod_cast h))

/-- Bracketing of a floor by its floor-half: `2⌊q/2⌋ ≤ ⌊q⌋ ≤ 2⌊q/2⌋ + 1`,
the bridge between float floor-halving and integer halving. -/
theorem floor_half_bounds (q : ℚ) :
    2 * ⌊q / 2⌋ ≤ ⌊q⌋ ∧ ⌊q⌋ ≤ 2 * ⌊q / 2⌋ + 1 := by
  constructor
  · refine Int.le_floor.2 ?_
    push_cast
    have h := Int.floor_le (q / 2)
    linarith
  · have h1 := Int.lt_floor_add_one (q / 2)
    have h2 := Int.floor_le q
    have h3 : (⌊q⌋ : ℚ) < 2 * ⌊q / 2⌋ + 2 := by linarith
    have h4 : ⌊q⌋ < 2 * ⌊q / 2⌋ + 2 := by exact_mod_cast h3
    omega

theorem sliceCount_eq (a b len : ℤ) (ha : 0 ≤ a) (hab : a ≤ b) (hb : b ≤ len) :
    sliceCount a b len = b - a := by
  simp only [sliceCount, npClip]
  split_ifs <;> omega

/-! ## Compositor geometry -/

theorem wide_ratio_mul (W0 H0 : ℕ) (tW tH : ℤ) (hH0 : 0 < H0) (htH : 0 < tH)
    (hw : isWide W0 H0 tW tH) : (tW : ℚ) * (H0 : ℚ) < (tH : ℚ) * (W0 : ℚ) := by
  have h1 : (0 : ℚ) < (tH : ℚ) := by exact_mod_cast htH
  have h2 : (0 : ℚ) < (H0 : ℚ) := by exact_mod_cast hH0
  have h3 := (div_lt_div_iff₀ h1 h2).1 hw
  linarith

theorem narrow_ratio_mul (W0 H0 : ℕ) (tW tH : ℤ) (hH0 : 0 < H0) (htH : 0 < tH)
    (hw : ¬ isWide W0 H0 tW tH) : (tH : ℚ) * (W0 : ℚ) ≤ (tW : ℚ) * (H0 : ℚ) := by
  have h1 : (0 : ℚ) < (tH : ℚ) := by exact_mod_cast htH
  have h2 : (0 : ℚ) < (H0 : ℚ) := by exact_mod_cast hH0
  have h3 := (div_le_div_iff₀ h2 h1).1 (not_lt.1 hw)
  linarith

theorem wide_facts (W0 H0 : ℕ) (tW tH : ℤ) (hW0 : 0 < W0) (hH0 : 0 < H0)
    (htW : 0 < tW) (htH : 0 < tH) (hw : isWide W0 H0 tW tH) :
    newDataW W0 H0 tW tH = tW ∧
    invNewDataH W0 H0 tW tH = tH ∧
    tW ≤ invNewDataW W0 H0 tW tH ∧
    x_offset W0 H0 tW tH = 0 ∧
    0 ≤ newDataH W0 H0 tW tH ∧
    0 ≤ y_offset W0 H0 tW tH ∧
    y_offset W0 H0 tW tH + newDataH W0 H0 tW tH ≤ tH := by
  have hW0Q : (0 : ℚ) < (W0 : ℚ) := by exact_mod_cast hW0
  have hH0Q : (0 : ℚ) < (H0 : ℚ) := by exact_mod_cast hH0
  have htWQ : (0 : ℚ) < (tW : ℚ) := by exact_mod_cast htW
  have htHQ : (0 : ℚ) < (tH : ℚ) := by exact_mod_cast htH
  have hsf : scaleFactor W0 H0 tW tH = (tW : ℚ) / (W0 : ℚ) := if_pos hw
  have hisf : invScaleFactor W0 H0 tW tH = (tH : ℚ) / (H0 : ℚ) := if_pos hw
  have hmulW : (tW : ℚ) / (W0 : ℚ) * (W0 : ℚ) = (tW : ℚ) :=
    div_mul_cancel₀ _ hW0Q.ne'
  have hmulH : (tH : ℚ) / (H0 : ℚ) * (H0 : ℚ) = (tH : ℚ) :=
    div_mul_cancel₀ _ hH0Q.ne'
  have hratio := wide_ratio_mul W0 H0 tW tH hH0 htH hw
  -- the exact overlay height
  set q : ℚ := (tW : ℚ) / (W0 : ℚ) * (H0 : ℚ) with hq
  have hq0 : 0 ≤ q := by positivity
  have hqlt : q < (tH : ℚ) := by
    rw [hq, div_mul_eq_mul_div, div_lt_iff₀ hW0Q]
    linarith
  have hoW : newDataW W0 H0 tW tH = tW := by
    rw [newDataW, hsf, hmulW, pyInt_intCast]
  have hcH : invNewDataH W0 H0 tW tH = tH := by
    rw [invNewDataH, hisf, hmulH, pyInt_intCast]
  have hcW : tW ≤ invNewDataW W0 H0 tW tH := by
    rw [invNewDataW, hisf, pyInt_of_nonneg _ (by positivity)]
    refine Int.le_floor.2 ?_
    rw [div_mul_eq_mul_div, le_div_iff₀ hH0Q]
    linarith
  have hoH : newDataH W0 H0 tW tH = ⌊q⌋ := by
    rw [newDataH, hsf, pyInt_of_nonneg _ (by positivity)]
  have hxz : x_offset W0 H0 tW tH = 0 := by
    rw [x_offset, w_offset, hsf, mul_comm ((W0 : ℕ) : ℚ) _, hmulW, sub_self]
  have hb1 := floor_half_bounds ((tH : ℤ) : ℚ)
  rw [Int.floor_intCast] at hb1
  have hb2 := floor_half_bounds q
  have hnlt : ⌊q⌋ < tH := Int.floor_lt.2 hqlt
  have hn0 : 0 ≤ ⌊q⌋ := Int.floor_nonneg.2 hq0
  have hyo : y_offset W0 H0 tW tH = ⌊(tH : ℚ) / 2⌋ - ⌊q / 2⌋ := by
    rw [y_offset, if_pos hw, hsf, mul_comm ((H0 : ℕ) : ℚ) _]
  exact ⟨hoW, hcH, hcW, hxz, by omega, by omega, by omega⟩

theorem narrow_facts (W0 H0 : ℕ) (tW tH : ℤ) (hW0 : 0 < W0) (hH0 : 0 < H0)
    (htW : 0 < tW) (htH : 0 < tH) (hw : ¬ isWide W0 H0 tW tH) :
    newDataH W0 H0 tW tH = tH ∧
    invNewDataW W0 H0 tW tH = tW ∧
    tH ≤ invNewDataH W0 H0 tW tH ∧
    y_offset W0 H0 tW tH = 0 ∧
    0 ≤ newDataW W0 H0 tW tH ∧
    0 ≤ x_offset W0 H0 tW tH ∧
    x_offset W0 H0 tW tH + newDataW W0 H0 tW tH ≤ tW := by
  have hW0Q : (0 : ℚ) < (W0 : ℚ) := by exact_mod_cast hW0
  have hH0Q : (0 : ℚ) < (H0 : ℚ) := by exact_mod_cast hH0
  have htWQ : (0 : ℚ) < (tW : ℚ) := by exact_mod_cast htW
  have htHQ : (0 : ℚ) < (tH : ℚ) := by exact_mod_cast htH
  have hsf : scaleFactor W0 H0 tW tH = (tH : ℚ) / (H0 : ℚ) := if_neg hw
  have hisf : invScaleFactor W0 H0 tW tH = (tW : ℚ) / (W0 : ℚ) := if_neg hw
  have hmulW : (tW : ℚ) / (W0 : ℚ) * (W0 : ℚ) = (tW : ℚ) :=
    div_mul_cancel₀ _ hW0Q.ne'
  have hmulH : (tH : ℚ) / (H0 : ℚ) * (H0 : ℚ) = (tH : ℚ) :=
    div_mul_cancel₀ _ hH0Q.ne'
  have hratio := narrow_ratio_mul W0 H0 tW tH hH0 htH hw
  -- the exact overlay width
  set q : ℚ := (tH : ℚ) / (H0 : ℚ) * (W0 : ℚ) with hq
  have hq0 : 0 ≤ q := by positivity
  have hqle : q ≤ (tW : ℚ) := by
    rw [hq, div_mul_eq_mul_div, div_le_iff₀ hH0Q]
    linarith
  have hoH : newDataH W0 H0 tW tH = tH := by
    rw [newDataH, hsf, hmulH, pyInt_intCast]
  have hcW : invNewDataW W0 H0 tW tH = tW := by
    rw [invNewDataW, hisf, hmulW, pyInt_intCast]
  have hcH : tH ≤ invNewDataH W0 H0 tW tH := by
    rw [invNewDataH, hisf, pyInt_of_nonneg _ (by positivity)]
    refine Int.le_floor.2 ?_
    rw [div_mul_eq_mul_div, le_div_iff₀ hW0Q]
    linarith
  have hoW : newDataW W0 H0 tW tH = ⌊q⌋ := by
    rw [newDataW, hsf, pyInt_of_nonneg _ (by positivity)]
  have hyz : y_offset W0 H0 tW tH = 0 := if_neg hw
  have hb1 := floor_half_bounds ((tW : ℤ) : ℚ)
  rw [Int.floor_intCast] at hb1
  have hb2 := floor_half_bounds q
  have hnle : ⌊q⌋ ≤ tW := by
    have h := Int.floor_le_floor hqle
    rwa [Int.floor_intCast] at h
  have hn0 : 0 ≤ ⌊q⌋ := Int.floor_nonneg.2 hq0
  have hxo : x_offset W0 H0 tW tH = ⌊(tW : ℚ) / 2⌋ - ⌊q / 2⌋ := by
    rw [x_offset, w_offset, hsf, mul_comm ((W0 : ℕ) : ℚ) _]
  exact ⟨hoH, hcW, hcH, hyz, by omega, by omega, by omega⟩

/-- The overlay paste rectangle lies inside the blurred cover, and the cover
is at least as large as the target frame, in both branches. -/
theorem paste_geometry (W0 H0 : ℕ) (tW tH : ℤ) (hW0 : 0 < W0) (hH0 : 0 < H0)
    (htW : 0 < tW) (htH : 0 < tH) :
    0 ≤ y_offset W0 H0 tW tH ∧
    y_offset W0 H0 tW tH + newDataH W0 H0 tW tH ≤ invNewDataH W0 H0 tW tH ∧
    0 ≤ x_offset W0 H0 tW tH ∧
    x_offset W0 H0 tW tH + newDataW W0 H0 tW tH ≤ invNewDataW W0 H0 tW tH ∧
    0 ≤ newDataH W0 H0 tW tH ∧ 0 ≤ newDataW W0 H0 tW tH ∧
    tH ≤ invNewDataH W0 H0 tW tH ∧ tW ≤ invNewDataW W0 H0 tW tH := by
  by_cases hw : isWide W0 H0 tW tH
  · obtain ⟨hoW, hcH, hcW, hxz, hoH0, hy0, hyb⟩ :=
      wide_facts W0 H0 tW tH hW0 hH0 htW htH hw
    exact ⟨hy0, by omega, by omega, by omega, hoH0, by omega, by omega, hcW⟩
  · obtain ⟨hoH, hcW, hcH, hyz, hoW0, hx0, hxb⟩ :=
      narrow_facts W0 H0 tW tH hW0 hH0 htW htH hw
    exact ⟨by omega, by omega, hx0, by omega, by omega, hoW0, hcH, by omega⟩

/-- On a decodable image whose overlay keeps at least one pixel per axis and
valid parameters, `scaleAndBlur` succeeds and returns a canvas of shape
exactly `targetHeight × targetWidth × 3`. -/
theorem scaleAndBlur_eq_ok (W0 H0 : ℕ) (tW tH b : ℤ) (hW0 : 0 < W0) (hH0 : 0 < H0)
    (htW : 0 < tW) (htH : 0 < tH) (hb : 0 < b) (hodd : b % 2 = 1)
    (hoW : 0 < newDataW W0 H0 tW tH) (hoH : 0 < newDataH W0 H0 tW tH) :
    scaleAndBlur (some (H0, W0)) tW tH b = .ok (tH.toNat, tW.toNat, 3) := by
  obtain ⟨h1, h2, h3, h4, h5, h6, h7, h8⟩ := paste_geometry W0 H0 tW tH hW0 hH0 htW htH
  have hrow : sliceCount (y_offset W0 H0 tW tH)
      (y_offset W0 H0 tW tH + newDataH W0 H0 tW tH) (invNewDataH W0 H0 tW tH) =
      newDataH W0 H0 tW tH := by
    rw [sliceCount_eq _ _ _ h1 (by omega) (by omega)]
    omega
  have hcol : sliceCount (x_offset W0 H0 tW tH)
      (x_offset W0 H0 tW tH + newDataW W0 H0 tW tH) (invNewDataW W0 H0 tW tH) =
      newDataW W0 H0 tW tH := by
    rw [sliceCount_eq _ _ _ h3 (by omega) (by omega)]
    omega
  have hth : sliceCount 0 tH (invNewDataH W0 H0 tW tH) = tH := by
    rw [sliceCount_eq _ _ _ le_rfl (by omega) (by omega)]
    omega
  have htw : sliceCount 0 tW (invNewDataW W0 H0 tW tH) = tW := by
    rw [sliceCount_eq _ _ _ le_rfl (by omega) (by omega)]
    omega
  simp only [scaleAndBlur]
  rw [if_neg (by omega), if_neg (by omega), if_neg (by omega),
    if_neg (by omega), if_neg (by omega), if_pos ⟨hrow, hcol⟩, hth, htw]

theorem frameAt_scale (z : ℚ) (tW tH : ℤ) (i : ℕ) :
    (frameAt z tW tH i).currentScale = 1 + (i : ℚ) * z := rfl

theorem frameAt_hOff (z : ℚ) (tW tH : ℤ) (i : ℕ) :
    (frameAt z tW tH i).horizontalOffset =
      pyInt (((frameAt z tW tH i).currentScale - 1) * (tH : ℚ)) := rfl

theorem frameAt_vOff (z : ℚ) (tW tH : ℤ) (i : ℕ) :
    (frameAt z tW tH i).verticalOffset =
      pyInt (((frameAt z tW tH i).currentScale - 1) * (tW : ℚ)) := rfl

theorem frameAt_height (z : ℚ) (tW tH : ℤ) (i : ℕ) :
    (frameAt z tW tH i).currentHeight =
      tH + (frameAt z tW tH i).horizontalOffset * 2 := rfl

theorem frameAt_width (z : ℚ) (tW tH : ℤ) (i : ℕ) :
    (frameAt z tW tH i).currentWidth =
      tW + (frameAt z tW tH i).verticalOffset * 2 := rfl

theorem frameAt_shape_def (z : ℚ) (tW tH : ℤ) (i : ℕ) :
    (frameAt z tW tH i).shape =
      ((sliceCount (frameAt z tW tH i).horizontalOffset
          (tH + (frameAt z tW tH i).horizontalOffset)
          (frameAt z tW tH i).currentHeight).toNat,
       (sliceCount (frameAt z tW tH i).verticalOffset
          (tW + (frameAt z tW tH i).verticalOffset)
          (frameAt z tW tH i).currentWidth).toNat, 3) := rfl

theorem frameAt_hOff_floor (z : ℚ) (tW tH : ℤ) (i : ℕ) (hz0 : 0 ≤ z)
    (htH : 0 ≤ tH) : (frameAt z tW tH i).horizontalOffset = ⌊(i : ℚ) * z * (tH : ℚ)⌋ := by
  have htHQ : (0 : ℚ) ≤ (tH : ℚ) := by exact_mod_cast htH
  have he : ((frameAt z tW tH i).currentScale - 1) * (tH : ℚ) =
      (i : ℚ) * z * (tH : ℚ) := by
    rw [frameAt_scale]; ring
  rw [frameAt_hOff, he, pyInt_of_nonneg]
  exact mul_nonneg (mul_nonneg (by positivity) hz0) htHQ

theorem frameAt_vOff_floor (z : ℚ) (tW tH : ℤ) (i : ℕ) (hz0 : 0 ≤ z)
    (htW : 0 ≤ tW) : (frameAt z tW tH i).verticalOffset = ⌊(i : ℚ) * z * (tW : ℚ)⌋ := by
  have htWQ : (0 : ℚ) ≤ (tW : ℚ) := by exact_mod_cast htW
  have he : ((frameAt z tW tH i).currentScale - 1) * (tW : ℚ) =
      (i : ℚ) * z * (tW : ℚ) := by
    rw [frameAt_scale]; ring
  rw [frameAt_vOff, he, pyInt_of_nonneg]
  exact mul_nonneg (mul_nonneg (by positivity) hz0) htWQ

theorem frameAt_hOff_nonneg (z : ℚ) (tW tH : ℤ) (i : ℕ) (hz0 : 0 ≤ z)
    (htH : 0 ≤ tH) : 0 ≤ (frameAt z tW tH i).horizontalOffset := by
  rw [frameAt_hOff_floor z tW tH i hz0 htH]
  refine Int.floor_nonneg.2 ?_
  have htHQ : (0 : ℚ) ≤ (tH : ℚ) := by exact_mod_cast htH
  exact mul_nonneg (mul_nonneg (by positivity) hz0) htHQ

theorem frameAt_vOff_nonneg (z : ℚ) (tW tH : ℤ) (i : ℕ) (hz0 : 0 ≤ z)
    (htW : 0 ≤ tW) : 0 ≤ (frameAt z tW tH i).verticalOffset := by
  rw [frameAt_vOff_floor z tW tH i hz0 htW]
  refine Int.floor_nonneg.2 ?_
  have htWQ : (0 : ℚ) ≤ (tW : ℚ) := by exact_mod_cast htW
  exact mul_nonneg (mul_nonneg (by positivity) hz0) htWQ

/-- Every frame's crop stays inside the enlarged image and has the target
shape. -/
theorem frameAt_safe (z : ℚ) (tW tH : ℤ) (i : ℕ) (hz0 : 0 ≤ z)
    (htW : 0 < tW) (htH : 0 < tH) :
    (frameAt z tW tH i).shape = (tH.toNat, tW.toNat, 3) ∧
    0 ≤ (frameAt z tW tH i).horizontalOffset ∧
    tH + (frameAt z tW tH i).horizontalOffset ≤ (frameAt z tW tH i).currentHeight ∧
    0 ≤ (frameAt z tW tH i).verticalOffset ∧
    tW + (frameAt z tW tH i).verticalOffset ≤ (frameAt z tW tH i).currentWidth := by
  have hh0 := frameAt_hOff_nonneg z tW tH i hz0 htH.le
  have hv0 := frameAt_vOff_nonneg z tW tH i hz0 htW.le
  have hH := frameAt_height z tW tH i
  have hW := frameAt_width z tW tH i
  refine ⟨?_, hh0, by omega, hv0, by omega⟩
  rw [frameAt_shape_def,
    sliceCount_eq _ _ _ hh0 (by omega) (by omega),
    sliceCount_eq _ _ _ hv0 (by omega) (by omega)]
  have e1 : tH + (frameAt z tW tH i).horizontalOffset -
      (frameAt z tW tH i).horizontalOffset = tH := by ring
  have e2 : tW + (frameAt z tW tH i).verticalOffset -
      (frameAt z tW tH i).verticalOffset = tW := by ring
  rw [e1, e2]

/-- Valid parameters: `frames_from_image` returns the mapped range. -/
theorem frames_eval (canvas : ℕ × ℕ × ℕ) (fr dur : ℤ) (z : ℚ) (tW tH : ℤ)
    (hfr : 0 < fr) (hdur : 0 < dur) (hz0 : 0 ≤ z) (hz1 : z ≤ 1 / 10)
    (htW : 0 < tW) (htH : 0 < tH) :
    frames_from_image canvas fr dur z tW tH =
      .ok ((List.range (fr * dur).toNat).map (frameAt z tW tH)) := by
  unfold frames_from_image
  rw [if_neg (by omega), if_neg (by omega),
    if_neg (by push_neg; exact ⟨hz0, hz1⟩), if_neg (by omega)]

/-! ## Stitcher lemmas -/

theorem stitchFrames_all_match (w h : ℤ) (vs : List VideoFile)
    (hdim : ∀ v ∈ vs, v.width = w ∧ v.height = h) :
    stitchFrames w h (vs.map some) = .ok (vs.map VideoFile.frames).flatten := by
  induction vs with
  | nil => rfl
  | cons v rest ih =>
    have hv := hdim v (List.mem_cons_self v rest)
    have hrest : ∀ u ∈ rest, u.width = w ∧ u.height = h :=
      fun u hu => hdim u (List.mem_cons_of_mem v hu)
    simp only [List.map_cons, stitchFrames, if_pos hv, ih hrest, List.flatten_cons]

theorem scaleAndBlur_invalid (d : Option (ℕ × ℕ)) (tW tH b : ℤ)
    (hbad : tW ≤ 0 ∨ tH ≤ 0 ∨ b ≤ 0 ∨ b % 2 = 0) :
    scaleAndBlur d tW tH b = scaleAndBlur none tW tH b := by
  unfold scaleAndBlur
  split_ifs with h1 h2 h3
  · rfl
  · rfl
  · rfl
  · exfalso
    rcases hbad with h | h | h | h
    · exact h1 (Or.inl h)
    · exact h1 (Or.inr h)
    · exact h2 h
    · exact h3 h

/-! ## Claims -/

/-- C6 counterexample: a 3840×2160 source with target 1920×1080 has
`sourceWidth/sourceHeight = targetWidth/targetHeight` (both 16/9), so by the
classification rule (`strictly` greater) it is NOT classified wide: the
claim that this source is classified wide and takes the wide branch is
false — `scaleAndBlur` takes the else branch (overlay scale fits to
`targetHeight`, vertical placement pinned to 0). -/
theorem C6_wide_cex :
    ¬ isWide 3840 2160 1920 1080 ∧
    scaleFactor 3840 2160 1920 1080 = ((1080 : ℤ) : ℚ) / ((2160 : ℕ) : ℚ) ∧
    y_offset 3840 2160 1920 1080 = 0 := by
  have h : ¬ isWide 3840 2160 1920 1080 := by
    unfold isWide
    norm_num
  exact ⟨h, by rw [scaleFactor, if_neg h], by rw [y_offset, if_neg h]⟩

/-- C6 (amended): a source is classified wide exactly when
`sourceWidth/sourceHeight` is strictly greater than `targetWidth/targetHeight`
(otherwise narrow-or-equal, with overlay scale fitting to `targetHeight` and
top-pinned vertical placement); the concrete 3840×2160 source with target
1920×1080 has equal ratios, hence is classified narrow-or-equal — and its
output canvas is still exactly 1920×1080×3. -/
theorem C6_wide_classification :
    (∀ (W0 H0 : ℕ) (tW tH : ℤ), isWide W0 H0 tW tH ↔
       (tW : ℚ) / (tH : ℚ) < (W0 : ℚ) / (H0 : ℚ)) ∧
    (∀ (W0 H0 : ℕ) (tW tH : ℤ), isWide W0 H0 tW tH →
       scaleFactor W0 H0 tW tH = (tW : ℚ) / (W0 : ℚ) ∧
       invScaleFactor W0 H0 tW tH = (tH : ℚ) / (H0 : ℚ)) ∧
    (∀ (W0 H0 : ℕ) (tW tH : ℤ), ¬ isWide W0 H0 tW tH →
       scaleFactor W0 H0 tW tH = (tH : ℚ) / (H0 : ℚ) ∧
       y_offset W0 H0 tW tH = 0) ∧
    ¬ isWide 3840 2160 1920 1080 ∧
    scaleAndBlur (some (2160, 3840)) 1920 1080 195 = .ok (1080, 1920, 3) := by
  refine ⟨fun _ _ _ _ => Iff.rfl,
    fun W0 H0 tW tH hw => ⟨if_pos hw, if_pos hw⟩,
    fun W0 H0 tW tH hw => ⟨if_neg hw, if_neg hw⟩,
    ?_, ?_⟩
  · unfold isWide
    norm_num
  · exact scaleAndBlur_eq_ok 3840 2160 1920 1080 195 (by norm_num) (by norm_num)
      (by norm_num) (by norm_num) (by norm_num) (by decide)
      (by rw [newDataW, scaleFactor, if_neg (by unfold isWide; norm_num)]
          exact pyInt_pos _ (by norm_num))
      (by rw [newDataH, scaleFactor, if_neg (by unfold isWide; norm_num)]
          exact pyInt_pos _ (by norm_num))

theorem C6_witness :
    ¬ isWide 500 1000 100 100 ∧
    scaleFactor 500 1000 100 100 = ((100 : ℤ) : ℚ) / ((1000 : ℕ) : ℚ) ∧
    y_offset 500 1000 100 100 = 0 :=
  ⟨by unfold isWide; norm_num,
   C6_wide_classification.2.2.1 500 1000 100 100 (by unfold isWide; norm_num)⟩

/-- C7 counterexample: an invalid-parameter failure (negative width) and a
decode failure raise exceptions of the SAME kind, `ValueError` — the two
failures are not distinguishable by kind (tag), only by message text. -/
theorem C7_error_kind_cex :
    errorKind (scaleAndBlur (some (2160, 3840)) (-1) 1080 195) =
      some "ValueError" ∧
    errorKind (scaleAndBlur none 1920 1080 195) = some "ValueError" :=
  ⟨rfl, rfl⟩

/-- C7 (amended): compose fails when `targetWidth`, `targetHeight` or
`blurKernel` violate their constraints and fails when the source image cannot
be decoded, but both failure kinds carry the same exception class
`ValueError`: callers can distinguish them only by message text, not by
kind. -/
theorem C7_same_error_kind (d : Option (ℕ × ℕ)) (tW tH b : ℤ)
    (hbad : tW ≤ 0 ∨ tH ≤ 0 ∨ b ≤ 0 ∨ b % 2 = 0) :
    errorKind (scaleAndBlur d tW tH b) = some "ValueError" ∧
    ∀ tW2 tH2 b2 : ℤ, 0 < tW2 → 0 < tH2 → 0 < b2 → b2 % 2 = 1 →
      errorKind (scaleAndBlur none tW2 tH2 b2) = some "ValueError" := by
  constructor
  · rw [scaleAndBlur_invalid d tW tH b hbad]
    unfold scaleAndBlur
    split_ifs <;> rfl
  · intro tW2 tH2 b2 h1 h2 h3 h4
    unfold scaleAndBlur
    rw [if_neg (by omega), if_neg (by omega), if_neg (by omega)]
    rfl

theorem C7_witness :
    ((-1 : ℤ) ≤ 0 ∨ (1080 : ℤ) ≤ 0 ∨ (195 : ℤ) ≤ 0 ∨ (195 : ℤ) % 2 = 0) ∧
    (errorKind (scaleAndBlur (some (2160, 3840)) (-1) 1080 195) =
        some "ValueError" ∧
     ∀ tW2 tH2 b2 : ℤ, 0 < tW2 → 0 < tH2 → 0 < b2 → b2 % 2 = 1 →
       errorKind (scaleAndBlur none tW2 tH2 b2) = some "ValueError") :=
  ⟨Or.inl (by norm_num),
   C7_same_error_kind (some (2160, 3840)) (-1) 1080 195 (Or.inl (by norm_num))⟩

/-- C8: each `InvalidParameter` condition raises before any frame is
produced and before any file is touched: `scaleAndBlur` with invalid
parameters returns the very same error whatever the decode oracle yields
(the image is never consulted), and `frames_from_image` with invalid
parameters fails identically for every canvas and yields no frame list. -/
theorem C8_validation_first (tW tH b : ℤ)
    (hbad : tW ≤ 0 ∨ tH ≤ 0 ∨ b ≤ 0 ∨ b % 2 = 0)
    (fr dur : ℤ) (z : ℚ) (gW gH : ℤ) (c₁ c₂ : ℕ × ℕ × ℕ)
    (hgbad : fr ≤ 0 ∨ dur ≤ 0 ∨ z < 0 ∨ 1 / 10 < z ∨ gW ≤ 0 ∨ gH ≤ 0) :
    (∀ d₁ d₂ : Option (ℕ × ℕ), scaleAndBlur d₁ tW tH b = scaleAndBlur d₂ tW tH b) ∧
    errorKind (scaleAndBlur none tW tH b) = some "ValueError" ∧
    frames_from_image c₁ fr dur z gW gH = frames_from_image c₂ fr dur z gW gH ∧
    ∀ fs, frames_from_image c₁ fr dur z gW gH ≠ .ok fs := by
  refine ⟨fun d₁ d₂ =>
      (scaleAndBlur_invalid d₁ tW tH b hbad).trans
        (scaleAndBlur_invalid d₂ tW tH b hbad).symm,
    ?_, rfl, ?_⟩
  · unfold scaleAndBlur
    split_ifs <;> rfl
  · intro fs h
    unfold frames_from_image at h
    revert h
    split_ifs with h1 h2 h3 h4 <;> intro h
    · exact h
    · exact h
    · exact h
    · exact h
    · rcases hgbad with hg | hg | hg | hg | hg | hg
      · exact absurd hg h1
      · exact absurd hg h2
      · exact h3 (Or.inl hg)
      · exact h3 (Or.inr hg)
      · exact h4 (Or.inl hg)
      · exact h4 (Or.inr hg)

theorem C8_witness :
    ((0 : ℤ) ≤ 0 ∨ (1080 : ℤ) ≤ 0 ∨ (195 : ℤ) ≤ 0 ∨ (195 : ℤ) % 2 = 0) ∧
    ((25 : ℤ) ≤ 0 ∨ (10 : ℤ) ≤ 0 ∨ (1 : ℚ) < 0 ∨ (1 : ℚ) / 10 < 1 ∨
      (1920 : ℤ) ≤ 0 ∨ (1080 : ℤ) ≤ 0) ∧
    ((∀ d₁ d₂ : Option (ℕ × ℕ), scaleAndBlur d₁ 0 1080 195 = scaleAndBlur d₂ 0 1080 195) ∧
     errorKind (scaleAndBlur none 0 1080 195) = some "ValueError" ∧
     frames_from_image (1080, 1920, 3) 25 10 1 1920 1080 =
       frames_from_image (4, 4, 3) 25 10 1 1920 1080 ∧
     ∀ fs, frames_from_image (1080, 1920, 3) 25 10 1 1920 1080 ≠ .ok fs) :=
  ⟨Or.inl (by norm_num), Or.inr (Or.inr (Or.inr (Or.inl (by norm_num)))),
   C8_validation_first 0 1080 195 (Or.inl (by norm_num)) 25 10 1 1920 1080
     (1080, 1920, 3) (4, 4, 3)
     (Or.inr (Or.inr (Or.inr (Or.inl (by norm_num)))))⟩

/-- C2 counterexample: with `zoomRatePerFrame = 0.0004` (the exact rational
1/2500), `frameRate = 25`, `durationSeconds = 10`, target 1920×1080, the
frames at indices 0 < 1 of the yielded sequence have identical crop margins
(all four margins are 0): the margins are NOT strictly increasing in the
frame index. -/
theorem C2_margins_cex :
    frames_from_image (1080, 1920, 3) 25 10 (1 / 2500) 1920 1080 =
      .ok ((List.range ((25 * 10 : ℤ)).toNat).map (frameAt (1 / 2500) 1920 1080)) ∧
    ((List.range ((25 * 10 : ℤ)).toNat).map (frameAt (1 / 2500) 1920 1080))[0]? =
      some (frameAt (1 / 2500) 1920 1080 0) ∧
    ((List.range ((25 * 10 : ℤ)).toNat).map (frameAt (1 / 2500) 1920 1080))[1]? =
      some (frameAt (1 / 2500) 1920 1080 1) ∧
    (frameAt (1 / 2500) 1920 1080 0).horizontalOffset = 0 ∧
    (frameAt (1 / 2500) 1920 1080 1).horizontalOffset = 0 ∧
    (frameAt (1 / 2500) 1920 1080 0).verticalOffset = 0 ∧
    (frameAt (1 / 2500) 1920 1080 1).verticalOffset = 0 := by
  refine ⟨frames_eval (1080, 1920, 3) 25 10 (1 / 2500) 1920 1080 (by norm_num)
    (by norm_num) (by norm_num) (by norm_num) (by norm_num) (by norm_num),
    by rw [List.getElem?_map, List.getElem?_range (by norm_num)]; rfl,
    by rw [List.getElem?_map, List.getElem?_range (by norm_num)]; rfl,
    ?_, ?_, ?_, ?_⟩
  · rw [frameAt_hOff, frameAt_scale]
    exact pyInt_eq _ 0 (by norm_num) (by norm_num) (by norm_num)
  · rw [frameAt_hOff, frameAt_scale]
    exact pyInt_eq _ 0 (by norm_num) (by norm_num) (by norm_num)
  · rw [frameAt_vOff, frameAt_scale]
    exact pyInt_eq _ 0 (by norm_num) (by norm_num) (by norm_num)
  · rw [frameAt_vOff, frameAt_scale]
    exact pyInt_eq _ 0 (by norm_num) (by norm_num) (by norm_num)

/-- C2 (amended): for `0 < zoomRatePerFrame ≤ 0.1` and valid parameters, the
crop margins of the frames yielded by `frames_from_image` are monotonically
NON-DECREASING in the frame index (the integer truncation can repeat a
margin across consecutive frames), while the underlying scale is strictly
increasing. -/
theorem C2_margins_monotone (canvas : ℕ × ℕ × ℕ) (fr dur : ℤ) (z : ℚ)
    (tW tH : ℤ) (i j : ℕ) (hfr : 0 < fr) (hdur : 0 < dur) (hz0 : 0 < z)
    (hz1 : z ≤ 1 / 10) (htW : 0 < tW) (htH : 0 < tH) (hij : i < j)
    (hj : (j : ℤ) < fr * dur) :
    ∃ fs, frames_from_image canvas fr dur z tW tH = .ok fs ∧
      ∀ fi fj, fs[i]? = some fi → fs[j]? = some fj →
        fi.horizontalOffset ≤ fj.horizontalOffset ∧
        fi.verticalOffset ≤ fj.verticalOffset ∧
        fi.currentScale < fj.currentScale := by
  refine ⟨_, frames_eval canvas fr dur z tW tH hfr hdur hz0.le hz1 htW htH, ?_⟩
  intro fi fj hfi hfj
  have hjn : j < (fr * dur).toNat := by omega
  have hin : i < (fr * dur).toNat := by omega
  rw [List.getElem?_map, List.getElem?_range hin] at hfi
  rw [List.getElem?_map, List.getElem?_range hjn] at hfj
  simp only [Option.map_some'] at hfi hfj
  obtain rfl : frameAt z tW tH i = fi := Option.some.inj hfi
  obtain rfl : frameAt z tW tH j = fj := Option.some.inj hfj
  have hijQ : (i : ℚ) ≤ (j : ℚ) := by exact_mod_cast hij.le
  have hijQlt : (i : ℚ) < (j : ℚ) := by exact_mod_cast hij
  have htHQ : (0 : ℚ) ≤ ((tH : ℤ) : ℚ) := by exact_mod_cast htH.le
  have htWQ : (0 : ℚ) ≤ ((tW : ℤ) : ℚ) := by exact_mod_cast htW.le
  refine ⟨?_, ?_, ?_⟩
  · rw [frameAt_hOff_floor z tW tH i hz0.le htH.le,
      frameAt_hOff_floor z tW tH j hz0.le htH.le]
    exact Int.floor_le_floor
      (mul_le_mul_of_nonneg_right (mul_le_mul_of_nonneg_right hijQ hz0.le) htHQ)
  · rw [frameAt_vOff_floor z tW tH i hz0.le htW.le,
      frameAt_vOff_floor z tW tH j hz0.le htW.le]
    exact Int.floor_le_floor
      (mul_le_mul_of_nonneg_right (mul_le_mul_of_nonneg_right hijQ hz0.le) htWQ)
  · rw [frameAt_scale, frameAt_scale]
    have := mul_lt_mul_of_pos_right hijQlt hz0
    linarith

theorem C2_witness :
    (0 < (25 : ℤ) ∧ 0 < (10 : ℤ) ∧ (0 : ℚ) < 1 / 2500 ∧
      (1 / 2500 : ℚ) ≤ 1 / 10 ∧ 0 < (1920 : ℤ) ∧ 0 < (1080 : ℤ) ∧
      (0 : ℕ) < 1 ∧ ((1 : ℕ) : ℤ) < 25 * 10) ∧
    ∃ fs, frames_from_image (1080, 1920, 3) 25 10 (1 / 2500) 1920 1080 = .ok fs ∧
      ∀ fi fj, fs[0]? = some fi → fs[1]? = some fj →
        fi.horizontalOffset ≤ fj.horizontalOffset ∧
        fi.verticalOffset ≤ fj.verticalOffset ∧
        fi.currentScale < fj.currentScale :=
  ⟨by norm_num,
   C2_margins_monotone (1080, 1920, 3) 25 10 (1 / 2500) 1920 1080 0 1
     (by norm_num) (by norm_num) (by norm_num) (by norm_num) (by norm_num)
     (by norm_num) (by norm_num) (by norm_num)⟩

/-- C3: for frame index `i`, `frames_from_image` yields at position `i` the
frame computed as `scale = 1 + i*zoomRate`,
`marginRows = ⌊(scale-1)*targetHeight⌋`,
`marginCols = ⌊(scale-1)*targetWidth⌋`, canvas enlarged to
`(targetWidth + 2*marginCols, targetHeight + 2*marginRows)`, and the
centered crop `[marginRows : targetHeight+marginRows,
marginCols : targetWidth+marginCols]` of target shape; concretely, with
frameRate 25, duration 10, zoomRate 0.0004 and a 1920×1080 target, frame
249 has scale 1.0996, marginRows 107 and marginCols 191. -/
theorem C3_frame_window (canvas : ℕ × ℕ × ℕ) (fr dur : ℤ) (z : ℚ)
    (tW tH : ℤ) (i : ℕ) (hfr : 0 < fr) (hdur : 0 < dur) (hz0 : 0 ≤ z)
    (hz1 : z ≤ 1 / 10) (htW : 0 < tW) (htH : 0 < tH) (hi : (i : ℤ) < fr * dur) :
    (∃ fs, frames_from_image canvas fr dur z tW tH = .ok fs ∧
       fs[i]? = some (frameAt z tW tH i)) ∧
    (frameAt z tW tH i).currentScale = 1 + (i : ℚ) * z ∧
    (frameAt z tW tH i).horizontalOffset =
      ⌊((frameAt z tW tH i).currentScale - 1) * (tH : ℚ)⌋ ∧
    (frameAt z tW tH i).verticalOffset =
      ⌊((frameAt z tW tH i).currentScale - 1) * (tW : ℚ)⌋ ∧
    (frameAt z tW tH i).currentWidth = tW + 2 * (frameAt z tW tH i).verticalOffset ∧
    (frameAt z tW tH i).currentHeight = tH + 2 * (frameAt z tW tH i).horizontalOffset ∧
    (frameAt z tW tH i).shape = (tH.toNat, tW.toNat, 3) ∧
    (frameAt (1 / 2500) 1920 1080 249).currentScale = 10996 / 10000 ∧
    (frameAt (1 / 2500) 1920 1080 249).horizontalOffset = 107 ∧
    (frameAt (1 / 2500) 1920 1080 249).verticalOffset = 191 ∧
    ∃ fs250, frames_from_image canvas 25 10 (1 / 2500) 1920 1080 = .ok fs250 ∧
      fs250.length = 250 := by
  have hin : i < (fr * dur).toNat := by omega
  have hhq : 0 ≤ ((frameAt z tW tH i).currentScale - 1) * (tH : ℚ) := by
    rw [frameAt_scale]
    have htHQ : (0 : ℚ) ≤ ((tH : ℤ) : ℚ) := by exact_mod_cast htH.le
    have : (1 + (i : ℚ) * z - 1) * (tH : ℚ) = (i : ℚ) * z * (tH : ℚ) := by ring
    rw [this]
    exact mul_nonneg (mul_nonneg (by positivity) hz0) htHQ
  have hvq : 0 ≤ ((frameAt z tW tH i).currentScale - 1) * (tW : ℚ) := by
    rw [frameAt_scale]
    have htWQ : (0 : ℚ) ≤ ((tW : ℤ) : ℚ) := by exact_mod_cast htW.le
    have : (1 + (i : ℚ) * z - 1) * (tW : ℚ) = (i : ℚ) * z * (tW : ℚ) := by ring
    rw [this]
    exact mul_nonneg (mul_nonneg (by positivity) hz0) htWQ
  refine ⟨⟨_, frames_eval canvas fr dur z tW tH hfr hdur hz0 hz1 htW htH, ?_⟩,
    frameAt_scale z tW tH i,
    by rw [frameAt_hOff]; exact pyInt_of_nonneg _ hhq,
    by rw [frameAt_vOff]; exact pyInt_of_nonneg _ hvq,
    by rw [frameAt_width]; ring,
    by rw [frameAt_height]; ring,
    (frameAt_safe z tW tH i hz0 htW htH).1,
    by rw [frameAt_scale]; norm_num,
    by rw [frameAt_hOff, frameAt_scale]
       exact pyInt_eq _ 107 (by norm_num) (by norm_num) (by norm_num),
    by rw [frameAt_vOff, frameAt_scale]
       exact pyInt_eq _ 191 (by norm_num) (by norm_num) (by norm_num),
    ⟨_, frames_eval canvas 25 10 (1 / 2500) 1920 1080 (by norm_num) (by norm_num)
      (by norm_num) (by norm_num) (by norm_num) (by norm_num),
      by simp⟩⟩
  rw [List.getElem?_map, List.getElem?_range hin]
  rfl

theorem C3_witness :
    (0 < (25 : ℤ) ∧ 0 < (10 : ℤ) ∧ (0 : ℚ) ≤ 1 / 2500 ∧
      (1 / 2500 : ℚ) ≤ 1 / 10 ∧ 0 < (1920 : ℤ) ∧ 0 < (1080 : ℤ) ∧
      ((249 : ℕ) : ℤ) < 25 * 10) ∧
    (frameAt (1 / 2500) 1920 1080 249).currentScale = 10996 / 10000 ∧
    (frameAt (1 / 2500) 1920 1080 249).horizontalOffset = 107 ∧
    (frameAt (1 / 2500) 1920 1080 249).verticalOffset = 191 :=
  ⟨by norm_num,
   (C3_frame_window (1080, 1920, 3) 25 10 (1 / 2500) 1920 1080 249
     (by norm_num) (by norm_num) (by norm_num) (by norm_num) (by norm_num)
     (by norm_num) (by norm_num)).2.2.2.2.2.2.2.1,
   (C3_frame_window (1080, 1920, 3) 25 10 (1 / 2500) 1920 1080 249
     (by norm_num) (by norm_num) (by norm_num) (by norm_num) (by norm_num)
     (by norm_num) (by norm_num)).2.2.2.2.2.2.2.2.1,
   (C3_frame_window (1080, 1920, 3) 25 10 (1 / 2500) 1920 1080 249
     (by norm_num) (by norm_num) (by norm_num) (by norm_num) (by norm_num)
     (by norm_num) (by norm_num)).2.2.2.2.2.2.2.2.2.1⟩

/-- C4: for all valid parameters and any canvas, `frames_from_image` yields a
finite sequence of exactly `frameRate * durationSeconds` frames, and a second
invocation with the same inputs reproduces the identical sequence. -/
theorem C4_frames_count (canvas : ℕ × ℕ × ℕ) (fr dur : ℤ) (z : ℚ)
    (tW tH : ℤ) (hfr : 0 < fr) (hdur : 0 < dur) (hz0 : 0 ≤ z)
    (hz1 : z ≤ 1 / 10) (htW : 0 < tW) (htH : 0 < tH) :
    ∃ fs, frames_from_image canvas fr dur z tW tH = .ok fs ∧
      (fs.length : ℤ) = fr * dur ∧
      ∀ fs₂, frames_from_image canvas fr dur z tW tH = .ok fs₂ → fs₂ = fs := by
  refine ⟨_, frames_eval canvas fr dur z tW tH hfr hdur hz0 hz1 htW htH, ?_, ?_⟩
  · have hpos : 0 < fr * dur := mul_pos hfr hdur
    simp only [List.length_map, List.length_range]
    omega
  · intro fs₂ h
    rw [frames_eval canvas fr dur z tW tH hfr hdur hz0 hz1 htW htH] at h
    exact (Except.ok.inj h).symm

theorem C4_witness :
    (0 < (25 : ℤ) ∧ 0 < (10 : ℤ) ∧ (0 : ℚ) ≤ 1 / 2500 ∧
      (1 / 2500 : ℚ) ≤ 1 / 10 ∧ 0 < (1920 : ℤ) ∧ 0 < (1080 : ℤ)) ∧
    ∃ fs, frames_from_image (1080, 1920, 3) 25 10 (1 / 2500) 1920 1080 = .ok fs ∧
      (fs.length : ℤ) = 25 * 10 ∧
      ∀ fs₂, frames_from_image (1080, 1920, 3) 25 10 (1 / 2500) 1920 1080 = .ok fs₂ →
        fs₂ = fs :=
  ⟨by norm_num,
   C4_frames_count (1080, 1920, 3) 25 10 (1 / 2500) 1920 1080 (by norm_num)
     (by norm_num) (by norm_num) (by norm_num) (by norm_num) (by norm_num)⟩

/-- C9: for all valid parameters, every frame yielded by `frames_from_image`
has shape exactly `(targetHeight, targetWidth, 3)`: the crop window
`[marginRows : targetHeight+marginRows, marginCols : targetWidth+marginCols]`
lies entirely within the enlarged image of size
`(targetHeight + 2*marginRows, targetWidth + 2*marginCols)`, so the slice
never truncates. -/
theorem C9_frames_shape_safe (canvas : ℕ × ℕ × ℕ) (fr dur : ℤ) (z : ℚ)
    (tW tH : ℤ) (hfr : 0 < fr) (hdur : 0 < dur) (hz0 : 0 ≤ z)
    (hz1 : z ≤ 1 / 10) (htW : 0 < tW) (htH : 0 < tH) :
    ∃ fs, frames_from_image canvas fr dur z tW tH = .ok fs ∧
      ∀ f ∈ fs, f.shape = (tH.toNat, tW.toNat, 3) ∧
        0 ≤ f.horizontalOffset ∧
        tH + f.horizontalOffset ≤ f.currentHeight ∧
        0 ≤ f.verticalOffset ∧
        tW + f.verticalOffset ≤ f.currentWidth := by
  refine ⟨_, frames_eval canvas fr dur z tW tH hfr hdur hz0 hz1 htW htH, ?_⟩
  intro f hf
  rw [List.mem_map] at hf
  obtain ⟨i, -, rfl⟩ := hf
  exact frameAt_safe z tW tH i hz0 htW htH

theorem C9_witness :
    (0 < (25 : ℤ) ∧ 0 < (10 : ℤ) ∧ (0 : ℚ) ≤ 1 / 2500 ∧
      (1 / 2500 : ℚ) ≤ 1 / 10 ∧ 0 < (1920 : ℤ) ∧ 0 < (1080 : ℤ)) ∧
    ∃ fs, frames_from_image (1080, 1920, 3) 25 10 (1 / 2500) 1920 1080 = .ok fs ∧
      ∀ f ∈ fs, f.shape = ((1080 : ℤ).toNat, (1920 : ℤ).toNat, 3) ∧
        0 ≤ f.horizontalOffset ∧
        (1080 : ℤ) + f.horizontalOffset ≤ f.currentHeight ∧
        0 ≤ f.verticalOffset ∧
        (1920 : ℤ) + f.verticalOffset ≤ f.currentWidth :=
  ⟨by norm_num,
   C9_frames_shape_safe (1080, 1920, 3) 25 10 (1 / 2500) 1920 1080 (by norm_num)
     (by norm_num) (by norm_num) (by norm_num) (by norm_num) (by norm_num)⟩

/-- C5 (modelled from the spec — `stitch_videos` is absent from `src/`):
given a non-empty ordered list of input videos that all open successfully
and all match the declared width and height, `stitch_videos` succeeds and
its output is the in-order concatenation of the inputs' frames, so the
total frame count is the sum of the inputs' frame counts; in particular,
for three inputs of `k` frames each, exactly `3k` frames. -/
theorem C5_stitch_total_frames (vs : List VideoFile) (out : String)
    (fps w h : ℤ) (hne : vs ≠ []) (hout : out ≠ "")
    (hdim : ∀ v ∈ vs, v.width = w ∧ v.height = h) :
    stitch_videos (vs.map some) out true fps w h =
      .ok (vs.map VideoFile.frames).flatten ∧
    ((vs.map VideoFile.frames).flatten).length =
      (vs.map fun v => v.frames.length).sum ∧
    ∀ k : ℕ, vs.length = 3 → (∀ v ∈ vs, v.frames.length = k) →
      ((vs.map VideoFile.frames).flatten).length = 3 * k := by
  have hlen : ((vs.map VideoFile.frames).flatten).length =
      (vs.map fun v => v.frames.length).sum := by
    rw [List.length_flatten, List.map_map]
    rfl
  refine ⟨?_, hlen, ?_⟩
  · unfold stitch_videos
    have hc : ((vs.map some).isEmpty || out == "") = false := by
      cases vs with
      | nil => exact absurd rfl hne
      | cons v rest =>
        simp only [List.map_cons, List.isEmpty_cons, Bool.false_or]
        exact beq_eq_false_iff_ne.2 hout
    rw [hc]
    simp only [Bool.false_eq_true, if_false, Bool.not_true]
    exact stitchFrames_all_match w h vs hdim
  · intro k h3 hk
    have hrep : vs.map (fun v => v.frames.length) = List.replicate 3 k := by
      refine List.eq_replicate_iff.2 ⟨by simp [h3], ?_⟩
      intro b hb
      rw [List.mem_map] at hb
      obtain ⟨v, hv, rfl⟩ := hb
      exact hk v hv
    rw [hlen, hrep, List.sum_replicate, smul_eq_mul]

theorem C5_witness :
    ([⟨640, 480, [0, 1]⟩, ⟨640, 480, [2, 3]⟩, ⟨640, 480, [4, 5]⟩] :
        List VideoFile) ≠ [] ∧
    ("out.mp4" : String) ≠ "" ∧
    (∀ v ∈ ([⟨640, 480, [0, 1]⟩, ⟨640, 480, [2, 3]⟩, ⟨640, 480, [4, 5]⟩] :
        List VideoFile), v.width = 640 ∧ v.height = 480) ∧
    stitch_videos
        (([⟨640, 480, [0, 1]⟩, ⟨640, 480, [2, 3]⟩, ⟨640, 480, [4, 5]⟩] :
          List VideoFile).map some) "out.mp4" true 10 640 480 =
      .ok (([⟨640, 480, [0, 1]⟩, ⟨640, 480, [2, 3]⟩, ⟨640, 480, [4, 5]⟩] :
          List VideoFile).map VideoFile.frames).flatten :=
  ⟨by simp, by simp, by simp,
   (C5_stitch_total_frames
     [⟨640, 480, [0, 1]⟩, ⟨640, 480, [2, 3]⟩, ⟨640, 480, [4, 5]⟩]
     "out.mp4" 10 640 480 (by simp) (by simp) (by simp)).1⟩

end ImageToVideo
